/-
Verification of the coin-ledger, card-validator and moderation-command
logic of the repository (src/test.py, src/newp.py, src/newc.py,
src/bot.py), shallowly embedded in Lean 4.

Python dicts keyed by strings are embedded as association lists with
first-occurrence lookup semantics; the embedded operations mirror the
source line by line.  `test.py`'s `UserManager` stores each balance as
`{"coins": n}` while `newp.py`'s `CoinManager` stores the bare integer;
both reduce to the same map from user id to integer balance, which is
what `Ledger` models.
-/
import Mathlib

/-- Lookup in an association list, mirroring python dict access
(`d[k]` / `d.get(k)`): the value of the first matching key. -/
def getVal? {β : Type} : List (String × β) → String → Option β
  | [], _ => none
  | (k, w) :: rest, key => if key = k then some w else getVal? rest key

/-- Update in an association list, mirroring python dict assignment
(`d[k] = v`): replace the first matching key's value, or append a fresh
entry. -/
def setVal {β : Type} : List (String × β) → String → β → List (String × β)
  | [], key, v => [(key, v)]
  | (k, w) :: rest, key, v =>
      if key = k then (key, v) :: rest else (k, w) :: setVal rest key v

theorem getVal_set_same {β : Type} (l : List (String × β)) (k : String) (v : β) :
    getVal? (setVal l k v) k = some v := by
  induction l with
  | nil => simp [setVal, getVal?]
  | cons hd tl ih =>
      obtain ⟨k', w⟩ := hd
      by_cases h : k = k' <;> simp [setVal, getVal?, h, ih]

theorem getVal_set_other {β : Type} (l : List (String × β)) {k k' : String} (v : β)
    (hne : k' ≠ k) : getVal? (setVal l k v) k' = getVal? l k' := by
  induction l with
  | nil => simp [setVal, getVal?, hne]
  | cons hd tl ih =>
      obtain ⟨k0, w⟩ := hd
      by_cases h : k = k0
      · subst h; simp [setVal, getVal?, hne]
      · by_cases h2 : k' = k0 <;> simp [setVal, getVal?, h, h2, ih]

theorem set_set_same {β : Type} (l : List (String × β)) (k : String) (v w : β) :
    setVal (setVal l k v) k w = setVal l k w := by
  induction l with
  | nil => simp [setVal]
  | cons hd tl ih =>
      obtain ⟨k0, w0⟩ := hd
      by_cases h : k = k0 <;> simp [setVal, h, ih]

theorem set_getVal_id {β : Type} (l : List (String × β)) {k : String} {c : β}
    (h : getVal? l k = some c) : setVal l k c = l := by
  induction l with
  | nil => simp [getVal?] at h
  | cons hd tl ih =>
      obtain ⟨k0, w0⟩ := hd
      by_cases h0 : k = k0
      · subst h0
        simp [getVal?] at h
        simp [setVal, h]
      · simp [getVal?, h0] at h
        simp [setVal, h0, ih h]

theorem set_set_comm {β : Type} (l : List (String × β)) {k k' : String} (v w : β)
    (hne : k ≠ k') (hk : (getVal? l k).isSome) :
    setVal (setVal l k v) k' w = setVal (setVal l k' w) k v := by
  induction l with
  | nil => simp [getVal?] at hk
  | cons hd tl ih =>
      obtain ⟨k0, w0⟩ := hd
      by_cases h : k = k0
      · subst h
        simp [setVal, hne, Ne.symm hne]
      · have hk' : (getVal? tl k).isSome := by simpa [getVal?, h] using hk
        by_cases h2 : k' = k0 <;> simp [setVal, h, h2, ih hk']

/-- The coin ledger: map from user id to balance.  Embeds
`CoinManager.users` of `src/newp.py` directly, and `UserManager.users`
of `src/test.py` up to unwrapping the `{"coins": n}` record. -/
abbrev Ledger : Type := List (String × Int)

/-- `UserManager.get_coins` (src/test.py:67) /
`CoinManager.get_coins` (src/newp.py:63):
`self.users.get(user_id, {}).get("coins", 0)`. -/
def get_coins (l : Ledger) (user_id : String) : Int :=
  (getVal? l user_id).getD 0

/-- `UserManager.add_coins` (src/test.py:54) /
`CoinManager.add_coins` (src/newp.py:43): insert `0` for a missing
user, then `+= amount`.  (`_save_users` only persists and is not
modelled.) -/
def add_coins (l : Ledger) (user_id : String) (amount : Int) : Ledger :=
  let l0 := match getVal? l user_id with
    | none => setVal l user_id 0
    | some _ => l
  setVal l0 user_id (get_coins l0 user_id + amount)

/-- `UserManager.deduct_coins` (src/test.py:60) /
`CoinManager.deduct_coins` (src/newp.py:52): if the user exists and has
at least `amount` coins, subtract and return `True`; otherwise leave the
ledger unchanged and return `False`. -/
def deduct_coins (l : Ledger) (user_id : String) (amount : Int) : Ledger × Bool :=
  match getVal? l user_id with
  | some c =>
      if c ≥ amount then (setVal l user_id (c - amount), true) else (l, false)
  | none => (l, false)

/-- `UserManager.transfer_coins` (src/test.py:70): if both users exist
and the sender has at least `amount` coins, move the coins and return
`True`; otherwise leave the ledger unchanged and return `False`.  The
receiver's balance is read after the sender's update, as in the
source. -/
def transfer_coins (l : Ledger) (sender_id receiver_id : String) (amount : Int) :
    Ledger × Bool :=
  match getVal? l sender_id, getVal? l receiver_id with
  | some cs, some _ =>
      if cs ≥ amount then
        let l1 := setVal l sender_id (cs - amount)
        (setVal l1 receiver_id (get_coins l1 receiver_id + amount), true)
      else (l, false)
  | _, _ => (l, false)

/-- All balances recorded in the ledger are non-negative. -/
def NonNeg (l : Ledger) : Prop := ∀ p ∈ l, 0 ≤ p.2

instance (l : Ledger) : Decidable (NonNeg l) := by
  unfold NonNeg
  infer_instance

theorem nonneg_get {l : Ledger} (h : NonNeg l) (user_id : String) :
    0 ≤ get_coins l user_id := by
  induction l with
  | nil => simp [get_coins, getVal?]
  | cons hd tl ih =>
      obtain ⟨k, w⟩ := hd
      by_cases hk : user_id = k
      · have := h (k, w) (by simp)
        simpa [get_coins, getVal?, hk] using this
      · have htl : NonNeg tl := fun p hp => h p (List.mem_cons_of_mem _ hp)
        simpa [get_coins, getVal?, hk] using ih htl

theorem nonneg_set {l : Ledger} {v : Int} (h : NonNeg l) (hv : 0 ≤ v) (k : String) :
    NonNeg (setVal l k v) := by
  induction l with
  | nil =>
      intro p hp
      simp [setVal] at hp
      simp [hp, hv]
  | cons hd tl ih =>
      obtain ⟨k0, w0⟩ := hd
      have htl : NonNeg tl := fun p hp => h p (List.mem_cons_of_mem _ hp)
      intro p hp
      by_cases hk : k = k0
      · simp [setVal, hk] at hp
        rcases hp with hp | hp
        · simp [hp, hv]
        · exact h p (List.mem_cons_of_mem _ hp)
      · simp [setVal, hk] at hp
        rcases hp with hp | hp
        · exact h p (by simp [hp])
        · exact ih htl p hp

/-- C1: for every ledger whose balances are all non-negative and every
operation invoked with a positive amount -- credit via `add_coins`,
debit via `deduct_coins`, transfer via `transfer_coins` -- every
account's balance remains non-negative after the operation, and the
balance query `get_coins` never returns a negative value. -/
theorem ledger_nonneg_preserved (l : Ledger) (user_id sender_id receiver_id : String)
    (amount : Int) (hl : NonNeg l) (hamt : 0 < amount) :
    NonNeg (add_coins l user_id amount) ∧
    NonNeg (deduct_coins l user_id amount).1 ∧
    NonNeg (transfer_coins l sender_id receiver_id amount).1 ∧
    0 ≤ get_coins l user_id := by
  refine ⟨?_, ?_, ?_, nonneg_get hl user_id⟩
  · unfold add_coins
    rcases hg : getVal? l user_id with _ | c
    · simp only [hg]
      have h0 : NonNeg (setVal l user_id 0) := nonneg_set hl le_rfl user_id
      exact nonneg_set h0 (by have := nonneg_get h0 user_id; omega) user_id
    · simp only [hg]
      exact nonneg_set hl (by have := nonneg_get hl user_id; omega) user_id
  · unfold deduct_coins
    rcases hg : getVal? l user_id with _ | c
    · simpa using hl
    · by_cases hc : c ≥ amount
      · have hc0 : (0:Int) ≤ c - amount := by omega
        simpa [hc] using nonneg_set hl hc0 user_id
      · simpa [hc] using hl
  · unfold transfer_coins
    rcases hs : getVal? l sender_id with _ | cs
    · simpa using hl
    · rcases hr : getVal? l receiver_id with _ | cr
      · simpa using hl
      · by_cases hc : cs ≥ amount
        · have h1 : NonNeg (setVal l sender_id (cs - amount)) :=
            nonneg_set hl (by omega) sender_id
          have h2 := nonneg_get h1 receiver_id
          simpa [hc] using nonneg_set h1 (by omega) receiver_id
        · simpa [hc] using hl

/-- Witness for C1 on a concrete non-negative ledger. -/
theorem ledger_nonneg_preserved_witness :
    NonNeg (add_coins [("a", (5:Int)), ("b", (2:Int))] "a" 3) ∧
    NonNeg (deduct_coins [("a", (5:Int)), ("b", (2:Int))] "a" 3).1 ∧
    NonNeg (transfer_coins [("a", (5:Int)), ("b", (2:Int))] "a" "b" 3).1 ∧
    0 ≤ get_coins [("a", (5:Int)), ("b", (2:Int))] "a" :=
  ledger_nonneg_preserved [("a", (5:Int)), ("b", (2:Int))] "a" "a" "b" 3
    (by decide) (by decide)

/-- C2: for every account and every positive amount, if the current
balance is below the amount then `deduct_coins` mutates nothing -- the
whole ledger is returned unchanged -- and reports failure (`False`),
so it never commits a negative balance. -/
theorem deduct_insufficient_noop (l : Ledger) (user_id : String) (amount : Int)
    (hamt : 0 < amount) (hlt : get_coins l user_id < amount) :
    deduct_coins l user_id amount = (l, false) := by
  unfold deduct_coins
  rcases hg : getVal? l user_id with _ | c
  · rfl
  · have hc : ¬ (c ≥ amount) := by
      have : get_coins l user_id = c := by simp [get_coins, hg]
      omega
    simp [hc]

/-- Witness for C2: an account with 3 coins cannot be debited 5. -/
theorem deduct_insufficient_noop_witness :
    deduct_coins [("u", (3:Int))] "u" 5 = ([("u", (3:Int))], false) :=
  deduct_insufficient_noop [("u", (3:Int))] "u" 5 (by decide) (by decide)

theorem getVal_mem {β : Type} {l : List (String × β)} {k : String} {c : β}
    (h : getVal? l k = some c) : (k, c) ∈ l := by
  induction l with
  | nil => simp [getVal?] at h
  | cons hd tl ih =>
      obtain ⟨k0, w0⟩ := hd
      by_cases h0 : k = k0
      · subst h0
        simp [getVal?] at h
        simp [h]
      · simp [getVal?, h0] at h
        exact List.mem_cons_of_mem _ (ih h)

theorem transfer_coins_eq {l : Ledger} {s r : String} {cs cr amount : Int}
    (hs : getVal? l s = some cs) (hr : getVal? l r = some cr) (hge : cs ≥ amount) :
    transfer_coins l s r amount =
      (setVal (setVal l s (cs - amount)) r
        (get_coins (setVal l s (cs - amount)) r + amount), true) := by
  unfold transfer_coins
  rw [hs, hr]
  simp [hge]

/-- Numeric value of a decimal digit character. -/
def digitVal (c : Char) : Nat := c.toNat - '0'.toNat

/-- Value of a run of decimal digits (helper for `pyInt?`). -/
def digitsVal : List Char → Nat → Nat
  | [], acc => acc
  | c :: rest, acc => digitsVal rest (10 * acc + digitVal c)

/-- Python's built-in `int(str)`: an optional sign followed by at
least one decimal digit parses to the signed value; anything else is
`none`, the `ValueError` path.  Every string this accepts, `int()`
parses to the same value, so a `pyInt? cs = some n` hypothesis is
always sound.  The converse holds only on printable-ASCII inputs
without whitespace or underscores (`PlainAscii` below): python
additionally strips whitespace, allows `_` separators between digits
and accepts Unicode decimal digits, so on those forms the `none`
branch is wider than `ValueError`, and every theorem that concludes
from a failed parse carries a `PlainAscii` hypothesis. -/
def pyInt? (cs : List Char) : Option Int :=
  match cs with
  | [] => none
  | c :: rest =>
      if c = '-' then
        if rest ≠ [] ∧ rest.all Char.isDigit then some (-(digitsVal rest 0 : Int))
        else none
      else if c = '+' then
        if rest ≠ [] ∧ rest.all Char.isDigit then some ((digitsVal rest 0 : Int))
        else none
      else if cs.all Char.isDigit then some ((digitsVal cs 0 : Int))
      else none

/-- Fields on which the embedding of python's string-level and
per-character `int()` parsing is exact: printable ASCII with no
whitespace and no underscore.  On such fields `int(s)` succeeds iff
`pyInt? s` does, and `int(c)` on a single character succeeds iff
`Char.isDigit c`; whitespace-padded, underscore-separated and
Unicode-digit forms, which python parses but the embedding maps to its
error branch, lie outside the predicate. -/
def PlainAscii (cs : List Char) : Prop :=
  ∀ c ∈ cs, 32 < c.toNat ∧ c.toNat < 128 ∧ c ≠ '_'

instance (cs : List Char) : Decidable (PlainAscii cs) := by
  unfold PlainAscii
  infer_instance

/-- `TelegramBotHandler.transfer_coins` (src/test.py:173), the public
`/transfer` command handler: reads `args[0]` as the receiver id and
`int(args[1])` as the amount and delegates to
`UserManager.transfer_coins`; an `IndexError` or `ValueError` yields
the usage reply.  Reply texts are abbreviated to tags. -/
def tg_transfer_coins (l : Ledger) (sender_id : String) (args : List String) :
    Ledger × String :=
  match args with
  | receiver_id :: amount_arg :: _ =>
      match pyInt? amount_arg.data with
      | some amount =>
          let res := transfer_coins l sender_id receiver_id amount
          if res.2 then (res.1, "transferred") else (res.1, "failed")
      | none => (l, "usage")
  | _ => (l, "usage")

/-- C10: `transfer_coins` does not validate that the amount is
positive: for distinct existing accounts whose sender balance is
non-negative and any negative amount `n`, the balance guard
`coins >= n` holds, the transfer succeeds, the sender's balance rises
by `|n|` and the receiver's falls by `|n|` (possibly below zero); and
the public `/transfer` handler parses its amount argument as an
arbitrary signed integer, so the call is reachable from the external
interface. -/
theorem transfer_negative_amount (l : Ledger) (s r : String) (cs cr n : Int)
    (amount_arg : String)
    (hsr : s ≠ r) (hs : getVal? l s = some cs) (hr : getVal? l r = some cr)
    (hcs : 0 ≤ cs) (hn : n < 0) (harg : pyInt? amount_arg.data = some n) :
    (transfer_coins l s r n).2 = true ∧
    get_coins (transfer_coins l s r n).1 s = cs - n ∧
    get_coins (transfer_coins l s r n).1 r = cr + n ∧
    tg_transfer_coins l s [r, amount_arg] =
      ((transfer_coins l s r n).1, "transferred") := by
  have hguard : cs ≥ n := by omega
  have hres := transfer_coins_eq hs hr hguard
  have hgr : get_coins (setVal l s (cs - n)) r = cr := by
    simp [get_coins, getVal_set_other l (cs - n) (Ne.symm hsr), hr]
  refine ⟨by rw [hres], ?_, ?_, ?_⟩
  · rw [hres, hgr]
    simp [get_coins, getVal_set_other _ (cr + n) hsr, getVal_set_same]
  · rw [hres, hgr]
    simp [get_coins, getVal_set_same]
  · simp [tg_transfer_coins, harg, hres]

/-- Witness for C10: a receiver at balance 0 is driven to -5 by a
`/transfer` invocation with amount argument "-5". -/
theorem transfer_negative_amount_witness :
    (transfer_coins [("s", (0:Int)), ("r", (0:Int))] "s" "r" (-5)).2 = true ∧
    get_coins (transfer_coins [("s", (0:Int)), ("r", (0:Int))] "s" "r" (-5)).1 "s"
      = 0 - (-5) ∧
    get_coins (transfer_coins [("s", (0:Int)), ("r", (0:Int))] "s" "r" (-5)).1 "r"
      = 0 + (-5) ∧
    tg_transfer_coins [("s", (0:Int)), ("r", (0:Int))] "s" ["r", "-5"] =
      ((transfer_coins [("s", (0:Int)), ("r", (0:Int))] "s" "r" (-5)).1,
        "transferred") :=
  transfer_negative_amount [("s", (0:Int)), ("r", (0:Int))] "s" "r" 0 0 (-5) "-5"
    (by decide) (by decide) (by decide) (by decide) (by decide) (by decide)

/-- C9 is false as stated: with account `a` at balance 0 and `b` at 10,
`transfer_coins a b 5` fails (insufficient funds) and changes nothing,
but the immediately following `transfer_coins b a 5` succeeds, so the
back-to-back pair leaves `a` at 5 instead of its original 0. -/
theorem transfer_roundtrip_cex :
    get_coins (transfer_coins
        (transfer_coins [("a", (0:Int)), ("b", (10:Int))] "a" "b" 5).1
        "b" "a" 5).1 "a" = 5 ∧
    get_coins [("a", (0:Int)), ("b", (10:Int))] "a" = 0 ∧ (5:Int) ≠ 0 := by
  decide

/-- C9 amended: for every ledger with non-negative balances and every
positive amount, whenever `transfer_coins a b amount` itself succeeds,
the immediately following `transfer_coins b a amount` also succeeds and
returns the ledger to exactly its original state. -/
theorem transfer_roundtrip_of_success (l : Ledger) (a b : String) (amount : Int)
    (hl : NonNeg l) (hamt : 0 < amount)
    (hsucc : (transfer_coins l a b amount).2 = true) :
    transfer_coins (transfer_coins l a b amount).1 b a amount = (l, true) := by
  rcases ha : getVal? l a with _ | ca
  · rw [transfer_coins] at hsucc
    simp [ha] at hsucc
  rcases hb : getVal? l b with _ | cb
  · rw [transfer_coins] at hsucc
    rw [ha, hb] at hsucc
    simp at hsucc
  by_cases hguard : ca ≥ amount
  case neg =>
    rw [transfer_coins] at hsucc
    rw [ha, hb] at hsucc
    simp [hguard] at hsucc
  have hres1 := transfer_coins_eq ha hb hguard
  by_cases hab : a = b
  · subst hab
    have hcb : ca = cb := by
      rw [ha] at hb
      exact Option.some.inj hb
    subst hcb
    have hid : transfer_coins l a a amount = (l, true) := by
      rw [hres1]
      have h1 : get_coins (setVal l a (ca - amount)) a = ca - amount := by
        simp [get_coins, getVal_set_same]
      rw [h1, set_set_same]
      have h2 : ca - amount + amount = ca := by omega
      rw [h2, set_getVal_id l ha]
    rw [hid]
    exact hid
  · have hcb0 : (0:Int) ≤ cb := hl _ (getVal_mem hb)
    have hgb : getVal? (setVal l a (ca - amount)) b = some cb := by
      rw [getVal_set_other l (ca - amount) (Ne.symm hab)]
      exact hb
    have hgrc : get_coins (setVal l a (ca - amount)) b = cb := by
      simp [get_coins, hgb]
    rw [hres1, hgrc]
    have h1b : getVal? (setVal (setVal l a (ca - amount)) b (cb + amount)) b
        = some (cb + amount) := getVal_set_same _ _ _
    have h1a : getVal? (setVal (setVal l a (ca - amount)) b (cb + amount)) a
        = some (ca - amount) := by
      rw [getVal_set_other _ (cb + amount) hab]
      exact getVal_set_same _ _ _
    have hguard2 : cb + amount ≥ amount := by omega
    have hres2 := transfer_coins_eq h1b h1a hguard2
    rw [hres2]
    have e1 : cb + amount - amount = cb := by omega
    rw [e1, set_set_same, set_getVal_id _ hgb]
    have h2 : get_coins (setVal l a (ca - amount)) a = ca - amount := by
      simp [get_coins, getVal_set_same]
    rw [h2]
    have e2 : ca - amount + amount = ca := by omega
    rw [e2, set_set_same, set_getVal_id l ha]

/-- Witness for C9's amended round-trip on a concrete ledger. -/
theorem transfer_roundtrip_of_success_witness :
    transfer_coins
      (transfer_coins [("a", (7:Int)), ("b", (2:Int))] "a" "b" 5).1 "b" "a" 5
      = ([("a", (7:Int)), ("b", (2:Int))], true) :=
  transfer_roundtrip_of_success [("a", (7:Int)), ("b", (2:Int))] "a" "b" 5
    (by decide) (by decide) (by decide)

/-- Every second element of a list starting with the first: the shape
shared by the python slices `digits[-1::-2]` and `digits[-2::-2]` once
the list is reversed. -/
def everyOther {α : Type} : List α → List α
  | [] => []
  | [a] => [a]
  | a :: _ :: rest => a :: everyOther rest

theorem everyOther_cons {α : Type} (b : α) (l : List α) :
    everyOther (b :: l) = b :: everyOther l.tail := by
  cases l <;> rfl

/-- Sum of the decimal digits of twice a digit: python
`sum(divmod(2*d, 10))`. -/
def doubleDigitSum (d : Nat) : Nat := 2 * d / 10 + 2 * d % 10

/-- `CardChecker.luhn_check` (src/test.py:82, src/newc.py:116) and the
identical `CardManager.luhn_check` (src/newp.py:72), applied to the
digit values of the card string: `digits[-1::-2]` is every second digit
starting from the rightmost, `digits[-2::-2]` every second digit
starting from the second rightmost. -/
def luhn_check (digits : List Nat) : Bool :=
  let odd_digits := everyOther digits.reverse
  let even_digits := everyOther digits.reverse.tail
  let total := odd_digits.sum + (even_digits.map doubleDigitSum).sum
  total % 10 == 0

/-- Modelled from the spec (§4.1), for comparison with the code's
`luhn_check`: the contribution of the digit at 1-based position `pos`
counted from the rightmost digit -- odd positions unchanged, even
positions doubled and reduced by 9 when the double exceeds 9. -/
def luhnSpecContrib (pos d : Nat) : Nat :=
  if pos % 2 = 1 then d else if 2 * d > 9 then 2 * d - 9 else 2 * d

/-- Modelled from the spec (§4.1): sum of the contributions starting at
position `pos`, the digits listed rightmost-first. -/
def luhnSpecTotalAux : Nat → List Nat → Nat
  | _, [] => 0
  | pos, d :: rest => luhnSpecContrib pos d + luhnSpecTotalAux (pos + 1) rest

/-- Modelled from the spec (§4.1): index digits from the rightmost
position as position 1 and sum all contributions. -/
def luhnSpecTotal (digits : List Nat) : Nat := luhnSpecTotalAux 1 digits.reverse

theorem doubleDigitSum_eq {d : Nat} (h : d ≤ 9) :
    doubleDigitSum d = if 2 * d > 9 then 2 * d - 9 else 2 * d := by
  unfold doubleDigitSum
  split <;> omega

theorem luhnSpecTotalAux_shift (r : List Nat) (pos : Nat) :
    luhnSpecTotalAux (pos + 2) r = luhnSpecTotalAux pos r := by
  induction r generalizing pos with
  | nil => rfl
  | cons d rest ih =>
      have hc : luhnSpecContrib (pos + 2) d = luhnSpecContrib pos d := by
        simp [luhnSpecContrib, Nat.add_mod_right]
      simp [luhnSpecTotalAux, hc]
      have : pos + 2 + 1 = pos + 1 + 2 := by omega
      rw [this, ih]

theorem luhn_slices_eq : ∀ r : List Nat, (∀ d ∈ r, d ≤ 9) →
    (everyOther r).sum + ((everyOther r.tail).map doubleDigitSum).sum
      = luhnSpecTotalAux 1 r
  | [], _ => by simp [everyOther, luhnSpecTotalAux]
  | [a], _ => by simp [everyOther, luhnSpecTotalAux, luhnSpecContrib]
  | a :: b :: rest, h => by
      have ih := luhn_slices_eq rest (fun d hd => h d (by simp [hd]))
      have hb : b ≤ 9 := h b (by simp)
      have h1 : everyOther (a :: b :: rest) = a :: everyOther rest := rfl
      have h2 : everyOther (b :: rest) = b :: everyOther rest.tail :=
        everyOther_cons b rest
      have h3 : luhnSpecTotalAux 3 rest = luhnSpecTotalAux 1 rest :=
        luhnSpecTotalAux_shift rest 1
      simp only [h1, List.tail_cons, h2, List.sum_cons, List.map_cons,
        luhnSpecTotalAux, luhnSpecContrib]
      rw [doubleDigitSum_eq hb] at *
      simp only [show (1:Nat) % 2 = 1 from rfl, show (2:Nat) % 2 = 0 from rfl,
        if_pos rfl]
      norm_num
      rw [h3, ← ih]
      ring

/-- Digit values of a card-number string: python
`list(map(int, card_number))` on an all-digit string. -/
def strDigits (s : String) : List Nat := s.data.map digitVal

/-- C4: for every list of decimal digit values, `luhn_check` accepts
iff the sum of the digits at odd positions (counting from the rightmost
digit as position 1) plus, for each digit at an even position, its
double reduced by 9 when the double exceeds 9, is divisible by 10; and
on the spec's test vectors, "4532015112830366" passes while
"4532015112830367" fails. -/
theorem luhn_check_spec (digits : List Nat) (h : ∀ d ∈ digits, d ≤ 9) :
    (luhn_check digits = true ↔ luhnSpecTotal digits % 10 = 0) ∧
    luhn_check (strDigits "4532015112830366") = true ∧
    luhn_check (strDigits "4532015112830367") = false := by
  refine ⟨?_, by decide, by decide⟩
  have key := luhn_slices_eq digits.reverse (fun d hd => h d (List.mem_reverse.mp hd))
  simp only [luhn_check, luhnSpecTotal]
  rw [key]
  simp

/-- Witness for C4 at a concrete digit list. -/
theorem luhn_check_spec_witness :
    (luhn_check [1, 8] = true ↔ luhnSpecTotal [1, 8] % 10 = 0) ∧
    luhn_check (strDigits "4532015112830366") = true ∧
    luhn_check (strDigits "4532015112830367") = false :=
  luhn_check_spec [1, 8] (by decide)

/-- Python `str.split(sep)` for a single-character separator, on the
string's characters: splits at every separator occurrence, keeping
empty pieces (`''.split('|') == ['']`). -/
def splitOnChar (sep : Char) : List Char → List (List Char)
  | [] => [[]]
  | c :: rest =>
      if c = sep then [] :: splitOnChar sep rest
      else
        match splitOnChar sep rest with
        | [] => [[c]]
        | g :: gs => (c :: g) :: gs

/-- The `{"status": ..., "code": ...}` record returned by `check_card`;
`validate_card`'s status and code fields project onto it. -/
structure CardResult where
  status : String
  code : String
deriving DecidableEq

/-- The body of `CardChecker.check_card` (src/test.py:92 and the
identical src/newc.py:126) after the four pipe-separated fields are
unpacked.  The python condition
`len(card_number) not in [13,15,16] or len(cvv) not in [3,4] or not (1 <= int(month) <= 12)`
short-circuits, so `int(month)` -- which raises `ValueError` on a
non-integer string, caught by the bare `except` as status INVALID -- is
only evaluated when both length checks pass; `luhn_check` raises
`ValueError` on a non-digit card number, likewise caught as INVALID.
The two INVALID branches use `pyInt?` and `Char.isDigit`, which are
exact models of the corresponding `ValueError` paths only on
`PlainAscii` fields; on whitespace-padded, underscore-separated or
Unicode-digit fields the source parses where this embedding reports
INVALID, so theorems concluding INVALID from these branches carry a
`PlainAscii` hypothesis. -/
def check_fields (card_number month _year cvv : List Char) : CardResult :=
  if card_number.length ∉ [13, 15, 16] then ⟨"DECLINED", "02"⟩
  else if cvv.length ∉ [3, 4] then ⟨"DECLINED", "02"⟩
  else
    match pyInt? month with
    | none => ⟨"INVALID", "99"⟩
    | some m =>
        if ¬ (1 ≤ m ∧ m ≤ 12) then ⟨"DECLINED", "02"⟩
        else if card_number.all Char.isDigit then
          if luhn_check (card_number.map digitVal) then ⟨"APPROVED", "00"⟩
          else ⟨"DECLINED", "01"⟩
        else ⟨"INVALID", "99"⟩

/-- `CardChecker.check_card` (src/test.py:92, src/newc.py:126):
`card_data.split('|')` must unpack into exactly four fields, otherwise
the `ValueError` is caught as status INVALID. -/
def check_card (card_data : List Char) : CardResult :=
  match splitOnChar '|' card_data with
  | [card_number, month, year, cvv] => check_fields card_number month year cvv
  | _ => ⟨"INVALID", "99"⟩

/-- The status/code projection of `CardManager.validate_card`
(src/newp.py:85): `luhn_check` raises on a non-digit card number and
`_get_card_info` raises `IndexError` (`card_number[0]`) on an empty
one, both caught as status INVALID; otherwise the status is decided by
`luhn_check` alone, with no structural checks.  The remaining fields of
the returned dict -- card type, bank, country and the wall-clock
`response_time` -- do not affect status or code and are projected
away.  As with `check_fields`, the `Char.isDigit` guard models the
`ValueError` path of `map(int, card_number)` exactly only on
`PlainAscii` card numbers (python also accepts Unicode decimal
digits), which is why theorems about this function constrain the card
number to all-ASCII-digit form in hypothesis position. -/
def validate_card (card_number _expiration_date _cvv : List Char) : CardResult :=
  if card_number.all Char.isDigit then
    match card_number with
    | [] => ⟨"INVALID", "99"⟩
    | _ :: _ =>
        if luhn_check (card_number.map digitVal) then ⟨"APPROVED", "00"⟩
        else ⟨"DECLINED", "01"⟩
  else ⟨"INVALID", "99"⟩

/-- C5 is false as stated: the all-digit card number "123456789012" has
length 12 -- a structural violation -- yet `check_card` returns status
DECLINED with code "02", not the INVALID/malformed result "99". -/
theorem check_card_structural_cex :
    check_card "123456789012|12|2027|123".data = ⟨"DECLINED", "02"⟩ ∧
    (⟨"DECLINED", "02"⟩ : CardResult) ≠ ⟨"INVALID", "99"⟩ := by decide

/-- C5 corrected: an input that does not split on the pipes into
exactly four fields makes `check_card` return status INVALID with code
"99"; after a four-way split, a card-number length outside {13,15,16},
a CVV length outside {3,4}, or a parseable expiry month outside [1,12]
yield status DECLINED with code "02"; for fields of printable ASCII
without whitespace or underscores -- where the embedding of `int()` is
exact -- an unparseable month or a non-digit card number of accepted
length yield status INVALID with code "99"; only a checksum failure on
a structurally well-formed input yields DECLINED with code "01"; and
the three failure codes are pairwise distinct. -/
theorem check_card_error_classes
    (card_data card_number month year cvv : List Char) (m : Int) :
    ((splitOnChar '|' card_data).length ≠ 4 →
      check_card card_data = ⟨"INVALID", "99"⟩) ∧
    (card_number.length ∉ [13, 15, 16] →
      check_fields card_number month year cvv = ⟨"DECLINED", "02"⟩) ∧
    (card_number.length ∈ [13, 15, 16] → cvv.length ∉ [3, 4] →
      check_fields card_number month year cvv = ⟨"DECLINED", "02"⟩) ∧
    (PlainAscii month →
      card_number.length ∈ [13, 15, 16] → cvv.length ∈ [3, 4] →
      pyInt? month = none →
      check_fields card_number month year cvv = ⟨"INVALID", "99"⟩) ∧
    (card_number.length ∈ [13, 15, 16] → cvv.length ∈ [3, 4] →
      pyInt? month = some m → ¬ (1 ≤ m ∧ m ≤ 12) →
      check_fields card_number month year cvv = ⟨"DECLINED", "02"⟩) ∧
    (PlainAscii card_number →
      card_number.length ∈ [13, 15, 16] → cvv.length ∈ [3, 4] →
      pyInt? month = some m → 1 ≤ m ∧ m ≤ 12 →
      card_number.all Char.isDigit = false →
      check_fields card_number month year cvv = ⟨"INVALID", "99"⟩) ∧
    (card_number.length ∈ [13, 15, 16] → cvv.length ∈ [3, 4] →
      pyInt? month = some m → 1 ≤ m ∧ m ≤ 12 →
      card_number.all Char.isDigit = true →
      check_fields card_number month year cvv =
        (if luhn_check (card_number.map digitVal) then ⟨"APPROVED", "00"⟩
         else ⟨"DECLINED", "01"⟩)) ∧
    (("02" : String) ≠ "99" ∧ ("02" : String) ≠ "01" ∧ ("99" : String) ≠ "01") := by
  refine ⟨?_, ?_, ?_, ?_, ?_, ?_, ?_, by decide, by decide, by decide⟩
  · intro h
    unfold check_card
    rcases hs : splitOnChar '|' card_data with
        _ | ⟨a, _ | ⟨b, _ | ⟨c, _ | ⟨d, _ | ⟨e, rest⟩⟩⟩⟩⟩ <;> simp_all
  · intro h1
    simp [check_fields, h1]
  · intro h1 h2
    simp [check_fields, h1, h2]
  · intro hpa h1 h2 h3
    simp [check_fields, h1, h2, h3]
  · intro h1 h2 h3 h4
    simp [check_fields, h1, h2, h3, h4]
  · intro hpa h1 h2 h3 h4 h5
    simp [check_fields, h1, h2, h3, h4, h5]
  · intro h1 h2 h3 h4 h5
    simp [check_fields, h1, h2, h3, h4, h5]

/-- Witness for C5's corrected classification: one concrete input per
failure class plus the checksum branch. -/
theorem check_card_error_classes_witness :
    check_card "12345".data = ⟨"INVALID", "99"⟩ ∧
    check_fields "123456789012".data "12".data "2027".data "123".data
      = ⟨"DECLINED", "02"⟩ ∧
    check_fields "4532015112830366".data "ab".data "2027".data "123".data
      = ⟨"INVALID", "99"⟩ ∧
    check_fields "453201511283036x".data "12".data "2027".data "123".data
      = ⟨"INVALID", "99"⟩ ∧
    check_fields "4532015112830366".data "12".data "2027".data "123".data
      = (if luhn_check ("4532015112830366".data.map digitVal)
          then (⟨"APPROVED", "00"⟩ : CardResult) else ⟨"DECLINED", "01"⟩) := by
  refine ⟨?_, ?_, ?_, ?_, ?_⟩
  · exact (check_card_error_classes "12345".data "".data "".data "".data
      "".data 0).1 (by decide)
  · exact (check_card_error_classes "".data "123456789012".data "12".data
      "2027".data "123".data 12).2.1 (by decide)
  · exact (check_card_error_classes "".data "4532015112830366".data "ab".data
      "2027".data "123".data 0).2.2.2.1 (by decide) (by decide) (by decide)
      (by decide)
  · exact (check_card_error_classes "".data "453201511283036x".data "12".data
      "2027".data "123".data 12).2.2.2.2.2.1 (by decide) (by decide) (by decide)
      (by decide) (by decide) (by decide)
  · exact (check_card_error_classes "".data "4532015112830366".data "12".data
      "2027".data "123".data 12).2.2.2.2.2.2.1 (by decide) (by decide) (by decide)
      (by decide) (by decide)

/-- C6 is false as stated: on the luhn-valid but 12-digit card number
"000000000000" (month 12, year 2027, CVV 123), `check_card` of
src/test.py and src/newc.py declines with code "02" while
`validate_card` of src/newp.py approves with code "00" -- the
implementations do not produce identical output for identical card
data. -/
theorem validators_disagree_cex :
    check_card "000000000000|12|2027|123".data = ⟨"DECLINED", "02"⟩ ∧
    validate_card "000000000000".data "12/2027".data "123".data
      = ⟨"APPROVED", "00"⟩ ∧
    (⟨"DECLINED", "02"⟩ : CardResult) ≠ ⟨"APPROVED", "00"⟩ := by decide

/-- C6 corrected: each embedded validator is a pure, total function of
its input, and `check_card` is one and the same function in src/test.py
and src/newc.py; but the implementations agree only on structurally
well-formed input -- an all-digit card number of accepted length, an
accepted CVV length and a month in [1,12] -- where `check_fields` and
`validate_card` return the same status and code.  On malformed input
they can differ, and `validate_card`'s full dict also carries a
wall-clock response time, so only its status/code projection is
deterministic. -/
theorem validators_agree_on_wellformed (card_number month year cvv : List Char)
    (m : Int) (hdig : card_number.all Char.isDigit = true)
    (hlen : card_number.length ∈ [13, 15, 16]) (hcvv : cvv.length ∈ [3, 4])
    (hm : pyInt? month = some m) (hm12 : 1 ≤ m ∧ m ≤ 12) :
    check_fields card_number month year cvv =
      validate_card card_number (month ++ '/' :: year) cvv := by
  rcases card_number with _ | ⟨c, cn⟩
  · simp at hlen
  · unfold check_fields validate_card
    rw [hm, if_neg (not_not_intro hlen), if_neg (not_not_intro hcvv)]
    simp [hm12, hdig]

/-- Witness for C6's corrected agreement at a concrete well-formed
input. -/
theorem validators_agree_on_wellformed_witness :
    check_fields "4532015112830366".data "12".data "2027".data "123".data =
      validate_card "4532015112830366".data ("12".data ++ '/' :: "2027".data)
        "123".data :=
  validators_agree_on_wellformed "4532015112830366".data "12".data "2027".data
    "123".data 12 (by decide) (by decide) (by decide) (by decide) (by decide)

/-- A user record of `UserManager` in src/newc.py:
`{'password': ..., 'coins': ..., 'is_admin': ..., 'cards_checked': ...}`. -/
structure ConsoleUser where
  password : String
  coins : Int
  is_admin : Bool
  cards_checked : Int
deriving DecidableEq

/-- `UserManager.ADMIN_PASSWORD` (src/newc.py:41). -/
def ADMIN_PASSWORD : String := "admin123"

/-- `UserManager.register` (src/newc.py:58): console registration.  The
interactive `input()`/`getpass()` reads are taken as parameters, the
username already lowercased as `input(...).lower()` produces; an
existing username is rejected, otherwise the account is created with
100 coins (1000 when the admin password was supplied) and a zero
`cards_checked` counter. -/
def register (users : List (String × ConsoleUser))
    (username password admin_input : String) :
    List (String × ConsoleUser) × Bool :=
  match getVal? users username with
  | some _ => (users, false)
  | none =>
      let adm := admin_input == ADMIN_PASSWORD
      (setVal users username ⟨password, if adm then 1000 else 100, adm, 0⟩, true)

/-- C7 is false as stated: crediting 5 coins to the fresh account "u"
via `add_coins` creates it with starting balance 0, not 100, so the
resulting balance is 5 rather than the claimed 100 + 5. -/
theorem add_coins_default_zero_cex :
    get_coins (add_coins [] "u" 5) "u" = 5 ∧ (5:Int) ≠ 100 + 5 := by decide

/-- C7 corrected: `add_coins` always succeeds and adds exactly the
credited amount to the balance; an account created lazily by it starts
at balance 0, so the resulting balance equals the amount alone.  The
100/1000 starting balances and zero counters belong to explicit console
registration (`register` in src/newc.py), not to lazy creation:
registering a fresh username creates the record with 100 coins for a
standard user, 1000 for an admin, and `cards_checked = 0`. -/
theorem credit_and_register_defaults (l : Ledger) (user_id : String) (amount : Int)
    (users : List (String × ConsoleUser)) (username password admin_input : String)
    (hfresh : getVal? l user_id = none)
    (hfreshu : getVal? users username = none) :
    get_coins (add_coins l user_id amount) user_id = get_coins l user_id + amount ∧
    get_coins (add_coins l user_id amount) user_id = amount ∧
    (register users username password admin_input).2 = true ∧
    getVal? (register users username password admin_input).1 username =
      some ⟨password, if admin_input == ADMIN_PASSWORD then 1000 else 100,
        admin_input == ADMIN_PASSWORD, 0⟩ := by
  have hg0 : get_coins l user_id = 0 := by simp [get_coins, hfresh]
  have hadd : add_coins l user_id amount
      = setVal (setVal l user_id 0) user_id (0 + amount) := by
    unfold add_coins
    rw [hfresh]
    simp [get_coins, getVal_set_same]
  refine ⟨?_, ?_, ?_, ?_⟩
  · rw [hadd, hg0]
    simp [get_coins, getVal_set_same]
  · rw [hadd]
    simp [get_coins, getVal_set_same]
  · simp [register, hfreshu]
  · simp [register, hfreshu, getVal_set_same]

/-- Witness for C7's corrected statement at concrete fresh accounts. -/
theorem credit_and_register_defaults_witness :
    get_coins (add_coins [] "u" 5) "u" = get_coins [] "u" + 5 ∧
    get_coins (add_coins [] "u" 5) "u" = 5 ∧
    (register [] "alice" "pw" "x").2 = true ∧
    getVal? (register [] "alice" "pw" "x").1 "alice" =
      some ⟨"pw", if "x" == ADMIN_PASSWORD then 1000 else 100,
        "x" == ADMIN_PASSWORD, 0⟩ :=
  credit_and_register_defaults [] "u" 5 [] "alice" "pw" "x" (by decide) (by decide)

/-- `TelegramBotHandler.check_card` (src/test.py:185): the `.chk`
handler computes the card result, then deducts exactly 1 coin via
`UserManager.deduct_coins`; on failure the insufficient-coins reply
withholds the result.  The reply is modelled as the optionally
delivered card result. -/
def tg_check_card (l : Ledger) (user_id : String) (card_data : List Char) :
    Ledger × Option CardResult :=
  let result := check_card card_data
  match deduct_coins l user_id 1 with
  | (l2, true) => (l2, some result)
  | (l2, false) => (l2, none)

/-- `TelegramBotHandler.check_card` (src/newc.py:194): requires a
registered user, computes the card result, then charges 5 coins
in-place when the balance allows; the user's `cards_checked` field is
never touched. -/
def newc_check_card (users : List (String × ConsoleUser)) (user_id : String)
    (card_data : List Char) : List (String × ConsoleUser) × Option CardResult :=
  match getVal? users user_id with
  | none => (users, none)
  | some u =>
      let result := check_card card_data
      if u.coins ≥ 5 then
        (setVal users user_id { u with coins := u.coins - 5 }, some result)
      else (users, none)

/-- C8 is false on src/newc.py: a registered standard user holding the
default 100 coins pays 5 coins (not 1) for a card check, ending at 95
rather than 99, and the `cards_checked` counter stays 0 because no code
path increments it. -/
theorem newc_check_card_cost_cex :
    getVal? (newc_check_card [("u", ⟨"pw", 100, false, 0⟩)] "u"
        "4532015112830366|12|27|123".data).1 "u"
      = some ⟨"pw", 95, false, 0⟩ ∧
    (95:Int) ≠ 100 - 1 ∧ (0:Int) ≠ 0 + 1 := by decide

/-- C8 corrected: in src/test.py a card-check attempt by an account
with sufficient balance costs exactly 1 coin -- the balance after the
attempt is the balance before minus 1 and the result is delivered --
but no `cards_checked` counter exists there at all; in src/newc.py the
attempt costs 5 coins and leaves the user's `cards_checked` counter
unchanged. -/
theorem card_check_cost (l : Ledger) (user_id : String) (card_data : List Char)
    (c : Int) (users : List (String × ConsoleUser)) (u : ConsoleUser)
    (hc : getVal? l user_id = some c) (h1 : c ≥ 1)
    (hu : getVal? users user_id = some u) (h5 : u.coins ≥ 5) :
    tg_check_card l user_id card_data
      = (setVal l user_id (c - 1), some (check_card card_data)) ∧
    newc_check_card users user_id card_data
      = (setVal users user_id
          ⟨u.password, u.coins - 5, u.is_admin, u.cards_checked⟩,
          some (check_card card_data)) := by
  constructor
  · unfold tg_check_card deduct_coins
    rw [hc]
    simp [h1]
  · unfold newc_check_card
    rw [hu]
    simp [h5]

/-- Witness for C8's corrected statement at concrete accounts. -/
theorem card_check_cost_witness :
    tg_check_card [("u", (3:Int))] "u" "x".data
      = (setVal [("u", (3:Int))] "u" (3 - 1), some (check_card "x".data)) ∧
    newc_check_card [("u", (⟨"pw", 100, false, 0⟩ : ConsoleUser))] "u" "x".data
      = (setVal [("u", (⟨"pw", 100, false, 0⟩ : ConsoleUser))] "u"
          ⟨"pw", 100 - 5, false, 0⟩, some (check_card "x".data)) :=
  card_check_cost [("u", (3:Int))] "u" "x".data 3
    [("u", ⟨"pw", 100, false, 0⟩)] ⟨"pw", 100, false, 0⟩
    (by decide) (by decide) (by decide) (by decide)

/-- The slice of a telegram update consulted by the `ban` and `warn`
handlers of src/bot.py: the caller, the chat type, the author of the
replied-to message when there is one, the bot's own id, and the live
roster returned by `get_chat_administrators`. -/
structure ModUpdate where
  caller_id : Int
  chat_type : String
  reply_from_id : Option Int
  bot_id : Int
  chat_admin_ids : List Int
deriving DecidableEq

/-- The single reply either handler sends: the five rejection replies
in source order, or the success action applied to the resolved
target. -/
inductive ModReply where
  | onlyAdmins
  | groupsOnly
  | replyRequired
  | cannotActOnSelf
  | cannotActOnAdmins
  | acted (target_id : Int)
deriving DecidableEq

/-- `is_admin` (src/bot.py:17): membership of the caller in the static
`ADMINS` allow-list, imported from the external config module and taken
here as a parameter. -/
def is_admin (admins : List Int) (user_id : Int) : Bool :=
  admins.contains user_id

/-- `ban` (src/bot.py:23): the guard chain in source order; the
concluding `ban_chat_member` call is the external effect, represented
by `acted`. -/
def ban (admins : List Int) (u : ModUpdate) : ModReply :=
  if ¬ is_admin admins u.caller_id then .onlyAdmins
  else if u.chat_type = "private" then .groupsOnly
  else
    match u.reply_from_id with
    | none => .replyRequired
    | some target_id =>
        if target_id = u.bot_id then .cannotActOnSelf
        else if u.chat_admin_ids.contains target_id then .cannotActOnAdmins
        else .acted target_id

/-- `warn` (src/bot.py:61): textually the same guard chain as `ban`,
with the warning message as the success action. -/
def warn (admins : List Int) (u : ModUpdate) : ModReply :=
  if ¬ is_admin admins u.caller_id then .onlyAdmins
  else if u.chat_type = "private" then .groupsOnly
  else
    match u.reply_from_id with
    | none => .replyRequired
    | some target_id =>
        if target_id = u.bot_id then .cannotActOnSelf
        else if u.chat_admin_ids.contains target_id then .cannotActOnAdmins
        else .acted target_id

/-- C3: for both moderation commands the five authorization checks run
in the fixed order -- privileged caller, multi-party context,
resolvable target, target not the bot's own identity, target not a
chat admin -- and evaluation stops at the first failing check with
exactly that one rejection reply; in particular a non-privileged
caller is rejected whatever the rest of the update, and a privileged
caller in a private chat is rejected with the group-only reply even
when a target is resolvable. -/
theorem moderation_check_order (admins : List Int) (u : ModUpdate) (t : Int) :
    (is_admin admins u.caller_id = false →
      ban admins u = .onlyAdmins ∧ warn admins u = .onlyAdmins) ∧
    (is_admin admins u.caller_id = true → u.chat_type = "private" →
      ban admins u = .groupsOnly ∧ warn admins u = .groupsOnly) ∧
    (is_admin admins u.caller_id = true → u.chat_type ≠ "private" →
      u.reply_from_id = none →
      ban admins u = .replyRequired ∧ warn admins u = .replyRequired) ∧
    (is_admin admins u.caller_id = true → u.chat_type ≠ "private" →
      u.reply_from_id = some t → t = u.bot_id →
      ban admins u = .cannotActOnSelf ∧ warn admins u = .cannotActOnSelf) ∧
    (is_admin admins u.caller_id = true → u.chat_type ≠ "private" →
      u.reply_from_id = some t → t ≠ u.bot_id →
      u.chat_admin_ids.contains t = true →
      ban admins u = .cannotActOnAdmins ∧ warn admins u = .cannotActOnAdmins) ∧
    (is_admin admins u.caller_id = true → u.chat_type ≠ "private" →
      u.reply_from_id = some t → t ≠ u.bot_id →
      u.chat_admin_ids.contains t = false →
      ban admins u = .acted t ∧ warn admins u = .acted t) := by
  refine ⟨?_, ?_, ?_, ?_, ?_, ?_⟩
  · intro h1
    exact ⟨by simp [ban, h1], by simp [warn, h1]⟩
  · intro h1 h2
    exact ⟨by simp [ban, h1, h2], by simp [warn, h1, h2]⟩
  · intro h1 h2 h3
    exact ⟨by simp [ban, h1, h2, h3], by simp [warn, h1, h2, h3]⟩
  · intro h1 h2 h3 h4
    exact ⟨by simp [ban, h1, h2, h3, h4], by simp [warn, h1, h2, h3, h4]⟩
  · intro h1 h2 h3 h4 h5
    have h5' : t ∈ u.chat_admin_ids := by simpa using h5
    exact ⟨by simp [ban, h1, h2, h3, h4, h5'], by simp [warn, h1, h2, h3, h4, h5']⟩
  · intro h1 h2 h3 h4 h5
    have h5' : t ∉ u.chat_admin_ids := by simpa using h5
    exact ⟨by simp [ban, h1, h2, h3, h4, h5'], by simp [warn, h1, h2, h3, h4, h5']⟩

/-- Witness for C3: a non-admin caller in a group with a resolvable
target is rejected as non-privileged; an admin caller in a private chat
with a resolvable target is rejected as group-only. -/
theorem moderation_check_order_witness :
    (ban [] ⟨1, "group", some 2, 99, []⟩ = .onlyAdmins ∧
      warn [] ⟨1, "group", some 2, 99, []⟩ = .onlyAdmins) ∧
    (ban [1] ⟨1, "private", some 2, 99, []⟩ = .groupsOnly ∧
      warn [1] ⟨1, "private", some 2, 99, []⟩ = .groupsOnly) := by
  constructor
  · exact (moderation_check_order [] ⟨1, "group", some 2, 99, []⟩ 2).1 (by decide)
  · exact (moderation_check_order [1] ⟨1, "private", some 2, 99, []⟩ 2).2.1
      (by decide) (by decide)
